import Mathlib

/-!
# Byte-range file locking primitive (`src/h2_rust_common/file_lock.c`)

A shallow embedding of the two C functions `c_lock` and `c_unlock`, followed by
theorems about them.

Modelling conventions.

* C `int` and `int64_t` values are Lean `Int`s.  The two functions compare
  integers with constants and copy them; they do no arithmetic, so no
  wrap-around can occur and the theorems hold for all integers, in particular
  for all machine integers.
* The constants that come from `<errno.h>` and `<fcntl.h>` are not part of the
  sources.  They are the fields of a parameter `Posix`.
* `fcntl` and `errno` are the operating system side.  `errno` is a field of the
  machine state, `fcntl` is a parameter: any function from a machine state and
  the three arguments to a return value and a new machine state.
* The source has no loop and no recursion, so both functions return as soon as
  `fcntl` does.  A waiting `fcntl` call that the operating system never
  completes produces no result at all; the theorems are about the calls that
  the operating system completes.
-/

namespace FileLock

/-! ## Data model -/

/-- Constants taken from the system headers `<errno.h>` and `<fcntl.h>`; their
numeric values differ between platforms, so they are parameters. -/
structure Posix where
  EBADF : Int
  F_RDLCK : Int
  F_WRLCK : Int
  F_UNLCK : Int
  F_SETLK : Int
  F_SETLKW : Int
  SEEK_SET : Int
  deriving DecidableEq, Repr

/-- The values of the constants on Linux (x86-64, glibc). -/
def linux : Posix where
  EBADF := 9
  F_RDLCK := 0
  F_WRLCK := 1
  F_UNLCK := 2
  F_SETLK := 6
  F_SETLKW := 7
  SEEK_SET := 0

/-- Modelled from the spec: the range-lock descriptor, `struct flock` of the
system header `<fcntl.h>`, which is not part of the sources.  It has the four
members the source assigns: the lock type, the anchor of the region, its
offset and its length; offset and length are `int64`, so storing an `int64_t`
into `l_start` or `l_len` does not change the value.  The member `l_pid` is
never written by the source and is ignored by the two commands it issues, so
it is left out. -/
structure Flock where
  l_type : Int
  l_whence : Int
  l_start : Int
  l_len : Int
  deriving DecidableEq, Repr

/-- The state the code runs against: the C variable `errno` and the state of
the operating system behind `fcntl`. -/
structure Machine (σ : Type) where
  errno : Int
  kernel : σ
  deriving DecidableEq, Repr

/-- The operating system layer: `fcntl m fd cmd arg` is the value returned by
`fcntl(fd, cmd, &arg)` started in machine state `m`, and the machine state
(with `errno`) it leaves behind. -/
structure OsLayer (σ : Type) where
  fcntl : Machine σ → Int → Int → Flock → Int × Machine σ

/-! ## The two functions -/

/-- Embedding of `int c_lock(int fd, int is_blocking, int64_t position,
int64_t size, int is_shared)`: the returned `int` and the final machine
state. -/
def c_lock {σ : Type} (P : Posix) (os : OsLayer σ) (m : Machine σ)
    (fd is_blocking position size is_shared : Int) : Int × Machine σ :=
  if fd < 0 then
    (P.EBADF, m)
  else
    let flock : Flock :=
      ⟨if is_shared ≠ 0 then P.F_RDLCK else P.F_WRLCK, P.SEEK_SET, position, size⟩
    let r := os.fcntl m fd (if is_blocking ≠ 0 then P.F_SETLKW else P.F_SETLK) flock
    if r.1 = -1 then
      (r.2.errno, r.2)
    else
      (0, r.2)

/-- Embedding of `int c_unlock(int fd, int64_t position, int64_t size)`. -/
def c_unlock {σ : Type} (P : Posix) (os : OsLayer σ) (m : Machine σ)
    (fd position size : Int) : Int × Machine σ :=
  if fd < 0 then
    (P.EBADF, m)
  else
    let flock : Flock := ⟨P.F_UNLCK, P.SEEK_SET, position, size⟩
    let r := os.fcntl m fd P.F_SETLK flock
    if r.1 = -1 then
      (r.2.errno, r.2)
    else
      (0, r.2)

/-! ## Test doubles for the operating system layer -/

/-- One recorded invocation `fcntl(fd, cmd, &arg)`. -/
structure Call where
  fd : Int
  cmd : Int
  arg : Flock
  deriving DecidableEq, Repr

/-- Wraps an operating system layer so that every `fcntl` invocation is
appended to a log kept next to the wrapped state; the wrapped layer sees the
same arguments and the caller sees the same return value and `errno`. -/
def recording {σ : Type} (os : OsLayer σ) : OsLayer (σ × List Call) where
  fcntl m fd cmd arg :=
    let r := os.fcntl ⟨m.errno, m.kernel.1⟩ fd cmd arg
    (r.1, ⟨r.2.errno, (r.2.kernel, m.kernel.2 ++ [⟨fd, cmd, arg⟩])⟩)

/-- A stateless layer whose `fcntl` always fails: it returns `-1` and leaves
`e` in `errno`. -/
def failing (e : Int) : OsLayer Unit where
  fcntl _ _ _ _ := (-1, ⟨e, ()⟩)

/-- A stateless layer whose `fcntl` always succeeds: it returns `0` and does
not touch `errno`. -/
def granting : OsLayer Unit where
  fcntl m _ _ _ := (0, m)

/-- The `fcntl` invocations `c_lock` issues, in order, when run against `os`
from machine state `m`. -/
def lockCalls {σ : Type} (P : Posix) (os : OsLayer σ) (m : Machine σ)
    (fd is_blocking position size is_shared : Int) : List Call :=
  (c_lock P (recording os) ⟨m.errno, (m.kernel, [])⟩
    fd is_blocking position size is_shared).2.kernel.2

/-- The `fcntl` invocations `c_unlock` issues, in order, when run against `os`
from machine state `m`. -/
def unlockCalls {σ : Type} (P : Posix) (os : OsLayer σ) (m : Machine σ)
    (fd position size : Int) : List Call :=
  (c_unlock P (recording os) ⟨m.errno, (m.kernel, [])⟩ fd position size).2.kernel.2

/-! ## Basic facts -/

theorem c_lock_of_neg {σ : Type} (P : Posix) (os : OsLayer σ) (m : Machine σ)
    (fd b pos sz sh : Int) (h : fd < 0) :
    c_lock P os m fd b pos sz sh = (P.EBADF, m) := by
  simp [c_lock, h]

theorem c_unlock_of_neg {σ : Type} (P : Posix) (os : OsLayer σ) (m : Machine σ)
    (fd pos sz : Int) (h : fd < 0) :
    c_unlock P os m fd pos sz = (P.EBADF, m) := by
  simp [c_unlock, h]

theorem c_lock_of_nonneg {σ : Type} (P : Posix) (os : OsLayer σ) (m : Machine σ)
    (fd b pos sz sh : Int) (h : 0 ≤ fd) :
    c_lock P os m fd b pos sz sh =
      (if (os.fcntl m fd (if b ≠ 0 then P.F_SETLKW else P.F_SETLK)
            ⟨if sh ≠ 0 then P.F_RDLCK else P.F_WRLCK, P.SEEK_SET, pos, sz⟩).1 = -1
        then (os.fcntl m fd (if b ≠ 0 then P.F_SETLKW else P.F_SETLK)
            ⟨if sh ≠ 0 then P.F_RDLCK else P.F_WRLCK, P.SEEK_SET, pos, sz⟩).2.errno
        else 0,
       (os.fcntl m fd (if b ≠ 0 then P.F_SETLKW else P.F_SETLK)
            ⟨if sh ≠ 0 then P.F_RDLCK else P.F_WRLCK, P.SEEK_SET, pos, sz⟩).2) := by
  have h' : ¬ fd < 0 := not_lt.mpr h
  simp only [c_lock, if_neg h']
  split_ifs <;> rfl

theorem c_unlock_of_nonneg {σ : Type} (P : Posix) (os : OsLayer σ) (m : Machine σ)
    (fd pos sz : Int) (h : 0 ≤ fd) :
    c_unlock P os m fd pos sz =
      (if (os.fcntl m fd P.F_SETLK ⟨P.F_UNLCK, P.SEEK_SET, pos, sz⟩).1 = -1
        then (os.fcntl m fd P.F_SETLK ⟨P.F_UNLCK, P.SEEK_SET, pos, sz⟩).2.errno
        else 0,
       (os.fcntl m fd P.F_SETLK ⟨P.F_UNLCK, P.SEEK_SET, pos, sz⟩).2) := by
  have h' : ¬ fd < 0 := not_lt.mpr h
  simp only [c_unlock, if_neg h']
  split_ifs <;> rfl

theorem lockCalls_of_neg {σ : Type} (P : Posix) (os : OsLayer σ) (m : Machine σ)
    (fd b pos sz sh : Int) (h : fd < 0) :
    lockCalls P os m fd b pos sz sh = [] := by
  simp [lockCalls, c_lock_of_neg, h]

theorem unlockCalls_of_neg {σ : Type} (P : Posix) (os : OsLayer σ) (m : Machine σ)
    (fd pos sz : Int) (h : fd < 0) :
    unlockCalls P os m fd pos sz = [] := by
  simp [unlockCalls, c_unlock_of_neg, h]

theorem lockCalls_of_nonneg {σ : Type} (P : Posix) (os : OsLayer σ) (m : Machine σ)
    (fd b pos sz sh : Int) (h : 0 ≤ fd) :
    lockCalls P os m fd b pos sz sh =
      [⟨fd, if b ≠ 0 then P.F_SETLKW else P.F_SETLK,
        ⟨if sh ≠ 0 then P.F_RDLCK else P.F_WRLCK, P.SEEK_SET, pos, sz⟩⟩] := by
  simp [lockCalls, c_lock_of_nonneg, h, recording]

theorem unlockCalls_of_nonneg {σ : Type} (P : Posix) (os : OsLayer σ) (m : Machine σ)
    (fd pos sz : Int) (h : 0 ≤ fd) :
    unlockCalls P os m fd pos sz =
      [⟨fd, P.F_SETLK, ⟨P.F_UNLCK, P.SEEK_SET, pos, sz⟩⟩] := by
  simp [unlockCalls, c_unlock_of_nonneg, h, recording]

/-- Recording is transparent for `c_lock`: run against the recording layer it
returns the same value and leaves the same `errno` and the same wrapped state
as run against the wrapped layer, and the log grows by the calls issued. -/
theorem c_lock_recording {σ : Type} (P : Posix) (os : OsLayer σ) (m : Machine σ)
    (log : List Call) (fd b pos sz sh : Int) :
    c_lock P (recording os) ⟨m.errno, (m.kernel, log)⟩ fd b pos sz sh =
      ((c_lock P os m fd b pos sz sh).1,
        ⟨(c_lock P os m fd b pos sz sh).2.errno,
          ((c_lock P os m fd b pos sz sh).2.kernel,
            log ++ lockCalls P os m fd b pos sz sh)⟩) := by
  rcases lt_or_le fd 0 with h | h
  · simp [lockCalls_of_neg, c_lock_of_neg, h]
  · rw [lockCalls_of_nonneg P os m fd _ _ _ _ h, c_lock_of_nonneg P os m fd _ _ _ _ h,
      c_lock_of_nonneg P (recording os) _ fd _ _ _ _ h]
    simp only [recording]

/-- Recording is transparent for `c_unlock`. -/
theorem c_unlock_recording {σ : Type} (P : Posix) (os : OsLayer σ) (m : Machine σ)
    (log : List Call) (fd pos sz : Int) :
    c_unlock P (recording os) ⟨m.errno, (m.kernel, log)⟩ fd pos sz =
      ((c_unlock P os m fd pos sz).1,
        ⟨(c_unlock P os m fd pos sz).2.errno,
          ((c_unlock P os m fd pos sz).2.kernel,
            log ++ unlockCalls P os m fd pos sz)⟩) := by
  rcases lt_or_le fd 0 with h | h
  · simp [unlockCalls_of_neg, c_unlock_of_neg, h]
  · rw [unlockCalls_of_nonneg P os m fd _ _ h, c_unlock_of_nonneg P os m fd _ _ h,
      c_unlock_of_nonneg P (recording os) _ fd _ _ h]
    simp only [recording]

/-- C1: for every handle `fd < 0` and all values of `is_blocking`, `position`,
`size` and `is_shared`, `c_lock` returns `EBADF`, a non-zero value, and issues
no call to the operating system layer: the log of a recording layer stays
empty and the machine state is the one the call started in. -/
theorem c_lock_invalid_handle {σ : Type} (P : Posix) (hE : P.EBADF ≠ 0)
    (os : OsLayer σ) (m : Machine σ)
    (fd is_blocking position size is_shared : Int) (hfd : fd < 0) :
    (c_lock P os m fd is_blocking position size is_shared).1 = P.EBADF ∧
    (c_lock P os m fd is_blocking position size is_shared).1 ≠ 0 ∧
    (c_lock P os m fd is_blocking position size is_shared).2 = m ∧
    lockCalls P os m fd is_blocking position size is_shared = [] := by
  refine ⟨?_, ?_, ?_, lockCalls_of_neg P os m fd _ _ _ _ hfd⟩
  · rw [c_lock_of_neg P os m fd _ _ _ _ hfd]
  · rw [c_lock_of_neg P os m fd _ _ _ _ hfd]
    exact hE
  · rw [c_lock_of_neg P os m fd _ _ _ _ hfd]

/-- On Linux, `c_lock` on the handle `-1` against the always-succeeding layer:
the result is `9`, nothing is recorded. -/
theorem c_lock_invalid_handle_witness :
    linux.EBADF ≠ 0 ∧ (-1 : Int) < 0 ∧
    (c_lock linux granting ⟨0, ()⟩ (-1) 1 0 100 0).1 = 9 ∧
    (c_lock linux granting ⟨0, ()⟩ (-1) 1 0 100 0).1 ≠ 0 ∧
    (c_lock linux granting ⟨0, ()⟩ (-1) 1 0 100 0).2 = ⟨0, ()⟩ ∧
    lockCalls linux granting ⟨0, ()⟩ (-1) 1 0 100 0 = [] :=
  ⟨by decide, by decide,
    c_lock_invalid_handle linux (by decide) granting ⟨0, ()⟩ (-1) 1 0 100 0 (by decide)⟩

/-- C2: for every handle `fd < 0` and all values of `position` and `size`,
`c_unlock` returns `EBADF`, a non-zero value, and issues no call to the
operating system layer. -/
theorem c_unlock_invalid_handle {σ : Type} (P : Posix) (hE : P.EBADF ≠ 0)
    (os : OsLayer σ) (m : Machine σ) (fd position size : Int) (hfd : fd < 0) :
    (c_unlock P os m fd position size).1 = P.EBADF ∧
    (c_unlock P os m fd position size).1 ≠ 0 ∧
    (c_unlock P os m fd position size).2 = m ∧
    unlockCalls P os m fd position size = [] := by
  refine ⟨?_, ?_, ?_, unlockCalls_of_neg P os m fd _ _ hfd⟩
  · rw [c_unlock_of_neg P os m fd _ _ hfd]
  · rw [c_unlock_of_neg P os m fd _ _ hfd]
    exact hE
  · rw [c_unlock_of_neg P os m fd _ _ hfd]

/-- On Linux, `c_unlock` on the handle `-1` against the always-succeeding
layer: the result is `9`, nothing is recorded. -/
theorem c_unlock_invalid_handle_witness :
    linux.EBADF ≠ 0 ∧ (-1 : Int) < 0 ∧
    (c_unlock linux granting ⟨0, ()⟩ (-1) 0 100).1 = 9 ∧
    (c_unlock linux granting ⟨0, ()⟩ (-1) 0 100).1 ≠ 0 ∧
    (c_unlock linux granting ⟨0, ()⟩ (-1) 0 100).2 = ⟨0, ()⟩ ∧
    unlockCalls linux granting ⟨0, ()⟩ (-1) 0 100 = [] :=
  ⟨by decide, by decide,
    c_unlock_invalid_handle linux (by decide) granting ⟨0, ()⟩ (-1) 0 100 (by decide)⟩

/-! ## The request handed to the operating system -/

/-- C3: for every handle `fd >= 0` and all other arguments, `c_lock` hands the
operating system exactly one request, for the given `fd`, whose lock type is
`F_RDLCK` when `is_shared` is non-zero and `F_WRLCK` when it is zero, whose
`l_whence` is `SEEK_SET`, and whose `l_start` and `l_len` are `position` and
`size` as given.  The statement is for all integers, so it covers `size = 0`
and negative `position` or `size`: they are forwarded, not rejected. -/
theorem c_lock_request {σ : Type} (P : Posix) (os : OsLayer σ) (m : Machine σ)
    (fd is_blocking position size is_shared : Int) (hfd : 0 ≤ fd) :
    ∃ cmd arg,
      lockCalls P os m fd is_blocking position size is_shared = [⟨fd, cmd, arg⟩] ∧
      (is_shared ≠ 0 → arg.l_type = P.F_RDLCK) ∧
      (is_shared = 0 → arg.l_type = P.F_WRLCK) ∧
      arg.l_whence = P.SEEK_SET ∧
      arg.l_start = position ∧
      arg.l_len = size := by
  refine ⟨_, _, lockCalls_of_nonneg P os m fd _ _ _ _ hfd, ?_, ?_, rfl, rfl, rfl⟩
  · intro h
    simp [h]
  · intro h
    simp [h]

/-- On Linux, a shared request on handle `3` with the negative position `-5`
and the size `0`: both are forwarded as they are. -/
theorem c_lock_request_witness :
    (0 : Int) ≤ 3 ∧
    ∃ cmd arg,
      lockCalls linux granting ⟨0, ()⟩ 3 0 (-5) 0 1 = [⟨3, cmd, arg⟩] ∧
      ((1 : Int) ≠ 0 → arg.l_type = linux.F_RDLCK) ∧
      ((1 : Int) = 0 → arg.l_type = linux.F_WRLCK) ∧
      arg.l_whence = linux.SEEK_SET ∧
      arg.l_start = -5 ∧
      arg.l_len = 0 :=
  ⟨by decide, c_lock_request linux granting ⟨0, ()⟩ 3 0 (-5) 0 1 (by decide)⟩

/-- C4: for every handle `fd >= 0`, the command of the one request `c_lock`
issues is `F_SETLKW` if and only if `is_blocking` is non-zero and `F_SETLK` if
and only if `is_blocking` is zero; the command is the same for every
`is_shared`, `position` and `size`, and the lock descriptor is the same for
every `is_blocking`. -/
theorem c_lock_command {σ : Type} (P : Posix) (hcmd : P.F_SETLK ≠ P.F_SETLKW)
    (os : OsLayer σ) (m : Machine σ)
    (fd is_blocking position size is_shared : Int) (hfd : 0 ≤ fd) :
    ∃ cmd arg,
      lockCalls P os m fd is_blocking position size is_shared = [⟨fd, cmd, arg⟩] ∧
      (cmd = P.F_SETLKW ↔ is_blocking ≠ 0) ∧
      (cmd = P.F_SETLK ↔ is_blocking = 0) ∧
      (∀ position' size' is_shared' : Int, ∃ arg',
        lockCalls P os m fd is_blocking position' size' is_shared' = [⟨fd, cmd, arg'⟩]) ∧
      (∀ is_blocking' : Int, ∃ cmd',
        lockCalls P os m fd is_blocking' position size is_shared = [⟨fd, cmd', arg⟩]) := by
  refine ⟨_, _, lockCalls_of_nonneg P os m fd _ _ _ _ hfd, ?_, ?_, ?_, ?_⟩
  · by_cases h : is_blocking = 0
    · simp [h, hcmd]
    · simp [h]
  · by_cases h : is_blocking = 0
    · simp [h]
    · simp [h, hcmd.symm]
  · intro position' size' is_shared'
    exact ⟨_, lockCalls_of_nonneg P os m fd _ _ _ _ hfd⟩
  · intro is_blocking'
    exact ⟨_, lockCalls_of_nonneg P os m fd _ _ _ _ hfd⟩

/-- On Linux, a waiting exclusive request on handle `3` for the range starting
at `0` of length `100`. -/
theorem c_lock_command_witness :
    linux.F_SETLK ≠ linux.F_SETLKW ∧ (0 : Int) ≤ 3 ∧
    ∃ cmd arg,
      lockCalls linux granting ⟨0, ()⟩ 3 1 0 100 0 = [⟨3, cmd, arg⟩] ∧
      (cmd = linux.F_SETLKW ↔ (1 : Int) ≠ 0) ∧
      (cmd = linux.F_SETLK ↔ (1 : Int) = 0) ∧
      (∀ position' size' is_shared' : Int, ∃ arg',
        lockCalls linux granting ⟨0, ()⟩ 3 1 position' size' is_shared' = [⟨3, cmd, arg'⟩]) ∧
      (∀ is_blocking' : Int, ∃ cmd',
        lockCalls linux granting ⟨0, ()⟩ 3 is_blocking' 0 100 0 = [⟨3, cmd', arg⟩]) :=
  ⟨by decide, by decide,
    c_lock_command linux (by decide) granting ⟨0, ()⟩ 3 1 0 100 0 (by decide)⟩

/-- C5: for every handle `fd >= 0` and all `position` and `size`, `c_unlock`
hands the operating system exactly one request: command `F_SETLK` (not
`F_SETLKW`), lock type `F_UNLCK` (neither `F_RDLCK` nor `F_WRLCK`), `l_whence`
`SEEK_SET`, `l_start = position` and `l_len = size`.  So `c_unlock` never
issues the waiting command. -/
theorem c_unlock_request {σ : Type} (P : Posix) (hcmd : P.F_SETLK ≠ P.F_SETLKW)
    (hrd : P.F_UNLCK ≠ P.F_RDLCK) (hwr : P.F_UNLCK ≠ P.F_WRLCK)
    (os : OsLayer σ) (m : Machine σ) (fd position size : Int) (hfd : 0 ≤ fd) :
    unlockCalls P os m fd position size =
      [⟨fd, P.F_SETLK, ⟨P.F_UNLCK, P.SEEK_SET, position, size⟩⟩] ∧
    (∀ c ∈ unlockCalls P os m fd position size,
      c.cmd ≠ P.F_SETLKW ∧ c.arg.l_type ≠ P.F_RDLCK ∧ c.arg.l_type ≠ P.F_WRLCK) := by
  rw [unlockCalls_of_nonneg P os m fd _ _ hfd]
  refine ⟨rfl, ?_⟩
  intro c hc
  rw [List.mem_singleton] at hc
  subst hc
  exact ⟨hcmd, hrd, hwr⟩

/-- On Linux, unlocking the range starting at `10` of length `90` on handle
`3` issues `fcntl(3, 6, {2, 0, 10, 90})` and nothing else. -/
theorem c_unlock_request_witness :
    linux.F_SETLK ≠ linux.F_SETLKW ∧ linux.F_UNLCK ≠ linux.F_RDLCK ∧
    linux.F_UNLCK ≠ linux.F_WRLCK ∧ (0 : Int) ≤ 3 ∧
    unlockCalls linux granting ⟨0, ()⟩ 3 10 90 = [⟨3, 6, ⟨2, 0, 10, 90⟩⟩] ∧
    (∀ c ∈ unlockCalls linux granting ⟨0, ()⟩ 3 10 90,
      c.cmd ≠ linux.F_SETLKW ∧ c.arg.l_type ≠ linux.F_RDLCK ∧
        c.arg.l_type ≠ linux.F_WRLCK) :=
  ⟨by decide, by decide, by decide, by decide,
    c_unlock_request linux (by decide) (by decide) (by decide) granting ⟨0, ()⟩ 3 10 90
      (by decide)⟩

/-! ## Results -/

/-- C7: for every handle `fd >= 0`, `c_lock` and `c_unlock` each issue exactly
one call and return right after it: the final machine state is the one that
call left behind, the result is `e` when the call failed (returned `-1`)
leaving `e` in `errno`, whatever `e` is, and the result is `0` when the call
did not fail. -/
theorem single_call_no_retry {σ : Type} (P : Posix) (os : OsLayer σ) (m : Machine σ)
    (fd is_blocking position size is_shared : Int) (hfd : 0 ≤ fd) :
    (∃ c, lockCalls P os m fd is_blocking position size is_shared = [c] ∧
      (c_lock P os m fd is_blocking position size is_shared).2 =
        (os.fcntl m c.fd c.cmd c.arg).2 ∧
      (∀ e : Int, (os.fcntl m c.fd c.cmd c.arg).1 = -1 →
        (os.fcntl m c.fd c.cmd c.arg).2.errno = e →
        (c_lock P os m fd is_blocking position size is_shared).1 = e) ∧
      ((os.fcntl m c.fd c.cmd c.arg).1 ≠ -1 →
        (c_lock P os m fd is_blocking position size is_shared).1 = 0)) ∧
    (∃ c, unlockCalls P os m fd position size = [c] ∧
      (c_unlock P os m fd position size).2 = (os.fcntl m c.fd c.cmd c.arg).2 ∧
      (∀ e : Int, (os.fcntl m c.fd c.cmd c.arg).1 = -1 →
        (os.fcntl m c.fd c.cmd c.arg).2.errno = e →
        (c_unlock P os m fd position size).1 = e) ∧
      ((os.fcntl m c.fd c.cmd c.arg).1 ≠ -1 →
        (c_unlock P os m fd position size).1 = 0)) := by
  constructor
  · refine ⟨_, lockCalls_of_nonneg P os m fd _ _ _ _ hfd, ?_, ?_, ?_⟩
    · rw [c_lock_of_nonneg P os m fd _ _ _ _ hfd]
    · intro e hfail herr
      rw [c_lock_of_nonneg P os m fd _ _ _ _ hfd]
      simp only [hfail, if_true]
      exact herr
    · intro hok
      rw [c_lock_of_nonneg P os m fd _ _ _ _ hfd]
      simp only [hok, if_false]
  · refine ⟨_, unlockCalls_of_nonneg P os m fd _ _ hfd, ?_, ?_, ?_⟩
    · rw [c_unlock_of_nonneg P os m fd _ _ hfd]
    · intro e hfail herr
      rw [c_unlock_of_nonneg P os m fd _ _ hfd]
      simp only [hfail, if_true]
      exact herr
    · intro hok
      rw [c_unlock_of_nonneg P os m fd _ _ hfd]
      simp only [hok, if_false]

/-- On Linux, handle `3` against a layer that always fails leaving `4` in
`errno` (the value of `EINTR`). -/
theorem single_call_no_retry_witness :
    (0 : Int) ≤ 3 ∧
    (∃ c, lockCalls linux (failing 4) ⟨0, ()⟩ 3 1 0 100 0 = [c] ∧
      (c_lock linux (failing 4) ⟨0, ()⟩ 3 1 0 100 0).2 =
        ((failing 4).fcntl ⟨0, ()⟩ c.fd c.cmd c.arg).2 ∧
      (∀ e : Int, ((failing 4).fcntl ⟨0, ()⟩ c.fd c.cmd c.arg).1 = -1 →
        ((failing 4).fcntl ⟨0, ()⟩ c.fd c.cmd c.arg).2.errno = e →
        (c_lock linux (failing 4) ⟨0, ()⟩ 3 1 0 100 0).1 = e) ∧
      (((failing 4).fcntl ⟨0, ()⟩ c.fd c.cmd c.arg).1 ≠ -1 →
        (c_lock linux (failing 4) ⟨0, ()⟩ 3 1 0 100 0).1 = 0)) ∧
    (∃ c, unlockCalls linux (failing 4) ⟨0, ()⟩ 3 0 100 = [c] ∧
      (c_unlock linux (failing 4) ⟨0, ()⟩ 3 0 100).2 =
        ((failing 4).fcntl ⟨0, ()⟩ c.fd c.cmd c.arg).2 ∧
      (∀ e : Int, ((failing 4).fcntl ⟨0, ()⟩ c.fd c.cmd c.arg).1 = -1 →
        ((failing 4).fcntl ⟨0, ()⟩ c.fd c.cmd c.arg).2.errno = e →
        (c_unlock linux (failing 4) ⟨0, ()⟩ 3 0 100).1 = e) ∧
      (((failing 4).fcntl ⟨0, ()⟩ c.fd c.cmd c.arg).1 ≠ -1 →
        (c_unlock linux (failing 4) ⟨0, ()⟩ 3 0 100).1 = 0)) :=
  ⟨by decide, single_call_no_retry linux (failing 4) ⟨0, ()⟩ 3 1 0 100 0 (by decide)⟩

/-- C6: return convention.  `EBADF` is non-zero and the one `fcntl` call the
function issues, when it reports failure (returns `-1`), leaves a non-zero
error code in `errno`, as POSIX requires.  Then for every call of `c_lock` and
of `c_unlock` the result is `0` if and only if the handle is valid (`fd >= 0`)
and the call issued did not return `-1`; every failed call, invalid handle or
call returning `-1`, yields a non-zero result. -/
theorem return_convention {σ : Type} (P : Posix) (hE : P.EBADF ≠ 0)
    (os : OsLayer σ) (m : Machine σ)
    (fd is_blocking position size is_shared : Int)
    (herr_lock :
      (os.fcntl m fd (if is_blocking ≠ 0 then P.F_SETLKW else P.F_SETLK)
        ⟨if is_shared ≠ 0 then P.F_RDLCK else P.F_WRLCK, P.SEEK_SET,
          position, size⟩).1 = -1 →
      (os.fcntl m fd (if is_blocking ≠ 0 then P.F_SETLKW else P.F_SETLK)
        ⟨if is_shared ≠ 0 then P.F_RDLCK else P.F_WRLCK, P.SEEK_SET,
          position, size⟩).2.errno ≠ 0)
    (herr_unlock :
      (os.fcntl m fd P.F_SETLK ⟨P.F_UNLCK, P.SEEK_SET, position, size⟩).1 = -1 →
      (os.fcntl m fd P.F_SETLK ⟨P.F_UNLCK, P.SEEK_SET, position, size⟩).2.errno ≠ 0) :
    ((c_lock P os m fd is_blocking position size is_shared).1 = 0 ↔
      0 ≤ fd ∧
      (os.fcntl m fd (if is_blocking ≠ 0 then P.F_SETLKW else P.F_SETLK)
        ⟨if is_shared ≠ 0 then P.F_RDLCK else P.F_WRLCK, P.SEEK_SET,
          position, size⟩).1 ≠ -1) ∧
    ((c_unlock P os m fd position size).1 = 0 ↔
      0 ≤ fd ∧
      (os.fcntl m fd P.F_SETLK ⟨P.F_UNLCK, P.SEEK_SET, position, size⟩).1 ≠ -1) ∧
    (fd < 0 ∨
      (os.fcntl m fd (if is_blocking ≠ 0 then P.F_SETLKW else P.F_SETLK)
        ⟨if is_shared ≠ 0 then P.F_RDLCK else P.F_WRLCK, P.SEEK_SET,
          position, size⟩).1 = -1 →
      (c_lock P os m fd is_blocking position size is_shared).1 ≠ 0) ∧
    (fd < 0 ∨
      (os.fcntl m fd P.F_SETLK ⟨P.F_UNLCK, P.SEEK_SET, position, size⟩).1 = -1 →
      (c_unlock P os m fd position size).1 ≠ 0) := by
  rcases lt_or_le fd 0 with hfd | hfd
  · rw [c_lock_of_neg P os m fd _ _ _ _ hfd, c_unlock_of_neg P os m fd _ _ hfd]
    have hn : ¬ 0 ≤ fd := not_le.mpr hfd
    simp [hE, hn]
  · rw [c_lock_of_nonneg P os m fd _ _ _ _ hfd, c_unlock_of_nonneg P os m fd _ _ hfd]
    have hn : ¬ fd < 0 := not_lt.mpr hfd
    generalize os.fcntl m fd (if is_blocking ≠ 0 then P.F_SETLKW else P.F_SETLK)
      ⟨if is_shared ≠ 0 then P.F_RDLCK else P.F_WRLCK, P.SEEK_SET, position, size⟩ = r1
      at herr_lock ⊢
    generalize os.fcntl m fd P.F_SETLK ⟨P.F_UNLCK, P.SEEK_SET, position, size⟩ = r2
      at herr_unlock ⊢
    refine ⟨?_, ?_, ?_, ?_⟩
    · by_cases h : r1.1 = -1
      · simp [h, hfd, herr_lock h]
      · simp [h, hfd]
    · by_cases h : r2.1 = -1
      · simp [h, hfd, herr_unlock h]
      · simp [h, hfd]
    · rintro (h | h)
      · exact absurd h hn
      · simp [h, herr_lock h]
    · rintro (h | h)
      · exact absurd h hn
      · simp [h, herr_unlock h]

/-- On Linux, handle `3` against a layer that always fails leaving `11` in
`errno` (the value of `EAGAIN`): both results are non-zero. -/
theorem return_convention_witness :
    linux.EBADF ≠ 0 ∧
    (((failing 11).fcntl ⟨0, ()⟩ 3 (if (0 : Int) ≠ 0 then linux.F_SETLKW else linux.F_SETLK)
        ⟨if (1 : Int) ≠ 0 then linux.F_RDLCK else linux.F_WRLCK, linux.SEEK_SET,
          0, 100⟩).1 = -1 →
      ((failing 11).fcntl ⟨0, ()⟩ 3 (if (0 : Int) ≠ 0 then linux.F_SETLKW else linux.F_SETLK)
        ⟨if (1 : Int) ≠ 0 then linux.F_RDLCK else linux.F_WRLCK, linux.SEEK_SET,
          0, 100⟩).2.errno ≠ 0) ∧
    (((failing 11).fcntl ⟨0, ()⟩ 3 linux.F_SETLK
        ⟨linux.F_UNLCK, linux.SEEK_SET, 0, 100⟩).1 = -1 →
      ((failing 11).fcntl ⟨0, ()⟩ 3 linux.F_SETLK
        ⟨linux.F_UNLCK, linux.SEEK_SET, 0, 100⟩).2.errno ≠ 0) ∧
    ((c_lock linux (failing 11) ⟨0, ()⟩ 3 0 0 100 1).1 = 0 ↔
      (0 : Int) ≤ 3 ∧
      ((failing 11).fcntl ⟨0, ()⟩ 3 (if (0 : Int) ≠ 0 then linux.F_SETLKW else linux.F_SETLK)
        ⟨if (1 : Int) ≠ 0 then linux.F_RDLCK else linux.F_WRLCK, linux.SEEK_SET,
          0, 100⟩).1 ≠ -1) ∧
    ((c_unlock linux (failing 11) ⟨0, ()⟩ 3 0 100).1 = 0 ↔
      (0 : Int) ≤ 3 ∧
      ((failing 11).fcntl ⟨0, ()⟩ 3 linux.F_SETLK
        ⟨linux.F_UNLCK, linux.SEEK_SET, 0, 100⟩).1 ≠ -1) ∧
    (c_lock linux (failing 11) ⟨0, ()⟩ 3 0 0 100 1).1 ≠ 0 ∧
    (c_unlock linux (failing 11) ⟨0, ()⟩ 3 0 100).1 ≠ 0 :=
  ⟨by decide, fun _ => by decide, fun _ => by decide,
    (return_convention linux (by decide) (failing 11) ⟨0, ()⟩ 3 0 0 100 1
      (fun _ => by decide) (fun _ => by decide)).1,
    (return_convention linux (by decide) (failing 11) ⟨0, ()⟩ 3 0 0 100 1
      (fun _ => by decide) (fun _ => by decide)).2.1,
    (return_convention linux (by decide) (failing 11) ⟨0, ()⟩ 3 0 0 100 1
      (fun _ => by decide) (fun _ => by decide)).2.2.1 (Or.inr (by decide)),
    (return_convention linux (by decide) (failing 11) ⟨0, ()⟩ 3 0 0 100 1
      (fun _ => by decide) (fun _ => by decide)).2.2.2 (Or.inr (by decide))⟩

end FileLock
